import Mathlib

/-!
Verification of the tenant-resolution core of the claveCRM repository.

The repository's `src/middleware.ts` contains two revisions of the Next.js
middleware (separated by a document marker); a third revision — the only one
that issues a redirect — is embedded in the login-page document.  The
`/api/get-tenants` route also exists in two revisions: one reading the
`tenants` collection (`domain` field), one reading the `users` collection
(`tenantId` field).

JavaScript strings are embedded as `List Char` (`JSStr`).  Each JS string
operation used by the source (`replace` with a string pattern, which replaces
only the first occurrence; `split('.')`; `startsWith`/`endsWith`/`includes`;
`toLowerCase`; the `x || y` truthiness default; the `:\d+$` port-stripping
regex and the `^https?:\/\/` protocol-stripping regex) is given its own
executable definition below, translated from the JS semantics.
-/

/-- JavaScript string, embedded as a list of characters. -/
abbrev JSStr := List Char

/-- JS `x || fallback` for a nullable string: `null`/`undefined` and the empty
string are falsy and select the fallback. -/
def jsOr (o : Option JSStr) (d : JSStr) : JSStr :=
  match o with
  | some s => if s = [] then d else s
  | none => d

/-- JS `if (x)` truthiness on a nullable string variable: the header is set
only when the value is non-null and non-empty. -/
def jsTruthy (o : Option JSStr) : Option JSStr :=
  match o with
  | some t => if t = [] then none else some t
  | none => none

/-- JS `s.replace(/:\d+$/, '')`: remove one trailing `:digits` suffix. -/
def stripPort (s : JSStr) : JSStr :=
  let r := s.reverse
  let ds := r.takeWhile (fun c => c.isDigit)
  if ds ≠ [] ∧ (r.drop ds.length).head? = some ':' then
    ((r.drop ds.length).drop 1).reverse
  else s

/-- JS `s.replace(/^https?:\/\//, '')`: remove one leading protocol. -/
def stripProtocol (s : JSStr) : JSStr :=
  if ("https://".toList).isPrefixOf s then s.drop 8
  else if ("http://".toList).isPrefixOf s then s.drop 7
  else s

/-- JS `s.replace(pat, '')` with a string pattern: remove the FIRST occurrence
of `pat` (not anchored to a suffix), or return `s` unchanged if absent. -/
def replaceFirst : JSStr → JSStr → JSStr
  | [], _ => []
  | c :: rest, pat =>
    if pat.isPrefixOf (c :: rest) then (c :: rest).drop pat.length
    else c :: replaceFirst rest pat

/-- JS `s.split(sep)` for a single-character separator. -/
def jsSplit (sep : Char) : JSStr → List JSStr
  | [] => [[]]
  | c :: rest =>
    match jsSplit sep rest with
    | [] => if c = sep then [[], []] else [[c]]
    | h :: t => if c = sep then [] :: h :: t else (c :: h) :: t

/-- JS `s.toLowerCase()` (ASCII range, which is all the source uses). -/
def jsToLower (s : JSStr) : JSStr := s.map Char.toLower

/-- JS `s.startsWith(p)`. -/
def jsStartsWith (p s : JSStr) : Bool := p.isPrefixOf s

/-- JS `s.endsWith(p)`. -/
def jsEndsWith (p s : JSStr) : Bool := p.isSuffixOf s

/-- Environment variables read by the middleware revisions. -/
structure Env where
  baseUrl : Option JSStr
  vercelUrl : Option JSStr
deriving DecidableEq

/-- Outcome of one middleware invocation: `bypass` forwards the request with
its headers untouched; `forward t` forwards it with the `x-tenant-id` header
set to `t` (when `some`) or deleted (when `none`); `redirect` is a redirect
response with the given status and `Location`. -/
inductive MwOutcome where
  | bypass : MwOutcome
  | forward (tenant : Option JSStr) : MwOutcome
  | redirect (status : Nat) (location : JSStr) : MwOutcome
deriving DecidableEq

/-- Path exemption shared by all middleware revisions: `/api/`, `/_next/`,
`/static/` prefixes, or any path containing a `.` character. -/
def exemptPath (path : JSStr) : Bool :=
  jsStartsWith ("/api/".toList) path ||
  jsStartsWith ("/_next/".toList) path ||
  jsStartsWith ("/static/".toList) path ||
  path.contains '.'

/-- Revision 1 `BASE_HOST`:
`(process.env.NEXT_PUBLIC_BASE_URL || 'localhost').replace(/:\d+$/, '')`. -/
def baseHost1 (env : Env) : JSStr := stripPort (jsOr env.baseUrl ("localhost".toList))

/-- Revision 2 `BASE_HOST`: `(… || 'localhost:3000')` with the protocol then
the port stripped. -/
def baseHost2 (env : Env) : JSStr :=
  stripPort (stripProtocol (jsOr env.baseUrl ("localhost:3000".toList)))

/-- Revision 3 `BASE_HOST` (login-page document): protocol stripped, but the
port is NOT stripped. -/
def baseHost3 (env : Env) : JSStr := stripProtocol (jsOr env.baseUrl ("localhost:3000".toList))

/-- JS `process.env.NEXT_PUBLIC_VERCEL_URL && hostname.endsWith(that)`. -/
def vercelHit (v : Option JSStr) (hostname : JSStr) : Bool :=
  match v with
  | some u => !(u.isEmpty) && jsEndsWith u hostname
  | none => false

/-- Revision 1 hostname: `(request.headers.get('host') || BASE_HOST).replace(/:\d+$/, '')`. -/
def hostname1 (env : Env) (host : Option JSStr) : JSStr :=
  stripPort (jsOr host (baseHost1 env))

/-- Revision 1 `parts`: `hostname.replace(`.${BASE_HOST}`, '').split('.')`. -/
def parts1 (env : Env) (hostname : JSStr) : List JSStr :=
  jsSplit '.' (replaceFirst hostname ('.' :: baseHost1 env))

/-- Revision 1 candidate subdomain, `parts[0]`. -/
def candidate1 (env : Env) (hostname : JSStr) : JSStr :=
  (parts1 env hostname).headD []

/-- Revision 1 tenant decision (`middleware.ts` lines 66-81): base-domain /
`www` / Vercel-preview hosts yield no tenant; otherwise `parts[0]` becomes the
tenant candidate and is kept only when the fetched list contains it. -/
def resolve1 (env : Env) (hostname : JSStr) (known : List JSStr) : Option JSStr :=
  if hostname = baseHost1 env ∨ candidate1 env hostname = ("www".toList) ∨
      vercelHit env.vercelUrl hostname = true then
    none
  else if 0 < (parts1 env hostname).length ∧
      candidate1 env hostname ≠ (jsSplit '.' (baseHost1 env)).headD [] ∧
      candidate1 env hostname ≠ [] then
    if candidate1 env hostname ∈ known then some (candidate1 env hostname) else none
  else
    none

/-- First middleware revision (`middleware.ts` lines 47-97): bypass exempt
paths, otherwise forward with the `x-tenant-id` header set from `resolve1`
(set when truthy, deleted otherwise).  This revision never redirects. -/
def middleware1 (env : Env) (path : JSStr) (host : Option JSStr) (known : List JSStr) : MwOutcome :=
  if exemptPath path then .bypass
  else .forward (jsTruthy (resolve1 env (hostname1 env host) known))

/-- Revision 2 Vercel-preview normalization (`middleware.ts` line 160). -/
def vercelNormalize (env : Env) (h : JSStr) : JSStr :=
  if vercelHit env.vercelUrl h = true then baseHost2 env else h

/-- Revision 2 host normalization (`middleware.ts` lines 157-166): strip the
port, substitute the base host for Vercel previews and for the
`cloudworkstations.dev` / `app.idx.dev` development suffixes. -/
def normalizeHost2 (env : Env) (h : JSStr) : JSStr :=
  if jsEndsWith ("cloudworkstations.dev".toList) (vercelNormalize env h) ||
      jsEndsWith ("app.idx.dev".toList) (vercelNormalize env h) then
    baseHost2 env
  else vercelNormalize env h

/-- Revision 2 normalized hostname. -/
def hostname2 (env : Env) (host : Option JSStr) : JSStr :=
  normalizeHost2 env (stripPort (jsOr host (baseHost2 env)))

/-- Revision 2 candidate: `hostname.replace(`.${BASE_HOST}`, '')`. -/
def candidate2 (env : Env) (hostname : JSStr) : JSStr :=
  replaceFirst hostname ('.' :: baseHost2 env)

/-- Revision 2 tenant decision (`middleware.ts` lines 169-186): on a
non-base hostname the stripped remainder is kept only when the fetched list
contains it; unknown subdomains are treated as the base domain. -/
def resolve2 (env : Env) (hostname : JSStr) (valid : List JSStr) : Option JSStr :=
  if hostname ≠ baseHost2 env then
    if candidate2 env hostname ∈ valid then some (candidate2 env hostname) else none
  else none

/-- Second middleware revision (`middleware.ts` lines 143-202): bypass exempt
paths, otherwise forward with the header set from `resolve2`.  This revision
never redirects either. -/
def middleware2 (env : Env) (path : JSStr) (host : Option JSStr) (valid : List JSStr) : MwOutcome :=
  if exemptPath path then .bypass
  else .forward (jsTruthy (resolve2 env (hostname2 env host) valid))

/-- Revision 3 hostname (login-page document): port stripped, development
suffixes substituted by the base host (no Vercel clause in this revision). -/
def hostname3 (env : Env) (host : Option JSStr) : JSStr :=
  if jsEndsWith ("cloudworkstations.dev".toList) (stripPort (jsOr host (baseHost3 env))) ||
      jsEndsWith ("app.idx.dev".toList) (stripPort (jsOr host (baseHost3 env))) then
    baseHost3 env
  else stripPort (jsOr host (baseHost3 env))

/-- Revision 3 candidate. -/
def candidate3 (env : Env) (hostname : JSStr) : JSStr :=
  replaceFirst hostname ('.' :: baseHost3 env)

/-- Third middleware revision (login-page document lines 154-207): the base
comparison is case-insensitive, and an unknown subdomain is answered with
`NextResponse.redirect(new URL(url.pathname, "https://" + BASE_HOST))`, whose
default status is 307; the `Location` is `https://BASE_HOST` followed by the
absolute pathname. -/
def middleware3 (env : Env) (path : JSStr) (host : Option JSStr) (valid : List JSStr) : MwOutcome :=
  if exemptPath path then .bypass
  else if jsToLower (hostname3 env host) ≠ jsToLower (baseHost3 env) then
    if candidate3 env (hostname3 env host) ∈ valid then
      .forward (jsTruthy (some (candidate3 env (hostname3 env host))))
    else
      .redirect 307 ("https://".toList ++ baseHost3 env ++ path)
  else .forward (jsTruthy none)

/-- Cache TTL, `CACHE_DURATION_MS = 5 * 60 * 1000`. -/
def CACHE_DURATION_MS : Nat := 5 * 60 * 1000

/-- Outcome of one attempt to fetch `/api/get-tenants`: a thrown fetch
exception, a non-OK HTTP status, a JSON body without a `tenantIds` array, or a
successful body carrying the array. -/
inductive FetchOutcome where
  | fetchError : FetchOutcome
  | httpError (status : Nat) : FetchOutcome
  | badFormat : FetchOutcome
  | ok (tenantIds : List JSStr) : FetchOutcome
deriving DecidableEq

/-- Every outcome except a well-formed OK response is a failure. -/
def FetchOutcome.isFailure : FetchOutcome → Bool
  | .ok _ => false
  | _ => true

/-- Module-level mutable cache of both `middleware.ts` revisions:
`cachedTenantIds` and `lastFetchTimestamp`. -/
structure CacheState where
  cachedTenantIds : Option (List JSStr)
  lastFetchTimestamp : Nat
deriving DecidableEq

/-- Shared refresh step: on success store the new array and the current time;
on any failure return `cachedTenantIds || []` and leave the state untouched. -/
def refreshResult (st : CacheState) (now : Nat) (f : FetchOutcome) : List JSStr × CacheState :=
  match f with
  | .ok ids => (ids, ⟨some ids, now⟩)
  | _ => (st.cachedTenantIds.getD [], st)

/-- Revision 1 `fetchProcessedTenantIds` (`middleware.ts` lines 11-45): serve
the cache while non-null and fresh (`now - lastFetchTimestamp <
CACHE_DURATION_MS`), otherwise attempt a refresh. -/
def fetchProcessedTenantIds (st : CacheState) (now : Nat) (f : FetchOutcome) :
    List JSStr × CacheState :=
  match st.cachedTenantIds with
  | some ids =>
    if now - st.lastFetchTimestamp < CACHE_DURATION_MS then (ids, st)
    else refreshResult st now f
  | none => refreshResult st now f

/-- Revision 2 `fetchValidTenantSubdomains` (`middleware.ts` lines 115-141):
identical logic; the malformed-body case falls through to the final
`return cachedTenantIds || []`. -/
def fetchValidTenantSubdomains (st : CacheState) (now : Nat) (f : FetchOutcome) :
    List JSStr × CacheState :=
  match st.cachedTenantIds with
  | some ids =>
    if now - st.lastFetchTimestamp < CACHE_DURATION_MS then (ids, st)
    else refreshResult st now f
  | none => refreshResult st now f

/-- One step of JS `Set` insertion: append unless already present. -/
def dedupPush (acc : List JSStr) (x : JSStr) : List JSStr :=
  if x ∈ acc then acc else acc ++ [x]

/-- JS `[...new Set(l)]`: deduplication keeping the first occurrence order. -/
def jsDedup (l : List JSStr) : List JSStr :=
  l.foldl dedupPush []

/-- Per-record extraction of the `tenants`-collection GET route
(`route.ts` lines 42-55): skip records without a truthy `domain` or whose
domain equals the base domain case-insensitively; take the first `.`-separated
label and keep it unless it is empty or equals `www` case-insensitively. -/
def extractSub (baseDomain : JSStr) (domain : Option JSStr) : Option JSStr :=
  match domain with
  | some dom =>
    if dom ≠ [] ∧ jsToLower dom ≠ jsToLower baseDomain then
      if (jsSplit '.' dom).headD [] ≠ [] ∧
          jsToLower ((jsSplit '.' dom).headD []) ≠ ("www".toList) then
        some ((jsSplit '.' dom).headD [])
      else none
    else none
  | none => none

/-- The `tenants`-collection GET revision (`route.ts` lines 30-62): its base
domain is `(NEXT_PUBLIC_BASE_URL || '').replace(/:\d+$/, '')`; the record
extractions are collected in document order and deduplicated with
`[...new Set(...)]`.  Each record is represented by its optional `domain`
field. -/
def GETtenants (baseUrl : Option JSStr) (docs : List (Option JSStr)) : List JSStr :=
  jsDedup (docs.filterMap (extractSub (stripPort (jsOr baseUrl []))))

/-- One record step of the `users`-collection GET revision
(`if (tenantId && !tenantIds.includes(tenantId)) tenantIds.push(tenantId)`). -/
def pushUnseen (acc : List JSStr) (d : Option JSStr) : List JSStr :=
  match d with
  | some t => if t ≠ [] ∧ t ∉ acc then acc ++ [t] else acc
  | none => acc

/-- The `users`-collection GET revision (`part_001` lines 30-51): push each
truthy `tenantId` not already collected; no `www` or base-domain exclusion of
any kind.  Each record is represented by its optional `tenantId` field. -/
def GETusers (docs : List (Option JSStr)) : List JSStr :=
  docs.foldl pushUnseen []

/-- Sanity example: a known tenant on the base domain resolves in revision 1. -/
example :
    middleware1 ⟨some ("app.example.com".toList), none⟩ ("/dashboard".toList)
      (some ("acme.app.example.com".toList)) [("acme".toList)] =
      .forward (some ("acme".toList)) := by decide

/-- Sanity example: the tenants-collection route keeps the first label of a
foreign domain even when that label is the base-domain's own first label. -/
example :
    GETtenants (some ("app.example.com".toList)) [some ("app.other.com".toList)] =
      [("app".toList)] := by decide

/-- Sanity example: the users-collection route deduplicates but performs no
reserved-label exclusion. -/
example :
    GETusers [some ("www".toList), some ("www".toList), some ("acme".toList)] =
      [("www".toList), ("acme".toList)] := by decide

/-- Removing the first occurrence of `pat` from `t ++ pat` recovers `t`
whenever no character of `t` equals the first character of `pat` — the
situation of a host `t.BASE_HOST` with a dot-free label `t` and
`pat = "." ++ BASE_HOST`. -/
theorem replaceFirst_append_head (t : JSStr) (c0 : Char) (ps : JSStr)
    (h : ∀ c ∈ t, c ≠ c0) : replaceFirst (t ++ (c0 :: ps)) (c0 :: ps) = t := by
  induction t with
  | nil =>
    simp only [List.nil_append, replaceFirst]
    rw [if_pos (by simp [List.isPrefixOf_iff_prefix])]
    exact List.drop_length (c0 :: ps)
  | cons c t ih =>
    have hc : c ≠ c0 := h c (by simp)
    simp only [List.cons_append, replaceFirst]
    rw [if_neg]
    · rw [List.append_eq, ih (fun x hx => h x (by simp [hx]))]
    · simp only [List.isPrefixOf_iff_prefix, List.cons_prefix_cons]
      intro hpre
      exact hc hpre.1.symm

/-- Splitting a list that does not contain the separator yields the singleton
list of the whole input, as with JS `split`. -/
theorem jsSplit_no_sep (sep : Char) (l : JSStr) (h : ∀ c ∈ l, c ≠ sep) :
    jsSplit sep l = [l] := by
  induction l with
  | nil => rfl
  | cons c t ih =>
    have hc : c ≠ sep := h c (by simp)
    simp only [jsSplit, ih (fun x hx => h x (by simp [hx]))]
    rw [if_neg hc]

/-- A host of the form `t ++ "." ++ B` is never the base host `B` itself. -/
theorem append_cons_ne (t B : JSStr) : t ++ ('.' :: B) ≠ B := by
  intro h
  have := congrArg List.length h
  simp only [List.length_append, List.length_cons] at this
  omega

/-- A host of the form `t ++ "." ++ B` is nonempty. -/
theorem append_cons_ne_nil (t B : JSStr) : t ++ ('.' :: B) ≠ [] := by
  intro h
  have := congrArg List.length h
  simp at this

/-- Sanity example: unknown candidate is forwarded without a header in both
`middleware.ts` revisions. -/
example :
    middleware2 ⟨some ("app.example.com".toList), none⟩ ("/dashboard".toList)
      (some ("initech.app.example.com".toList)) [("acme".toList)] =
      .forward none := by decide

/-- Sanity example: revision 3 redirects an unknown candidate with status 307. -/
example :
    middleware3 ⟨some ("app.example.com".toList), none⟩ ("/dashboard".toList)
      (some ("initech.app.example.com".toList)) [("acme".toList)] =
      .redirect 307 ("https://app.example.com/dashboard".toList) := by decide

/-- Inversion for JS truthiness: a set header value comes from the same
non-null resolver value. -/
theorem jsTruthy_eq_some {o : Option JSStr} {t : JSStr} (h : jsTruthy o = some t) :
    o = some t := by
  cases o with
  | none => simp [jsTruthy] at h
  | some x =>
    simp only [jsTruthy] at h
    by_cases hx : x = []
    · rw [if_pos hx] at h; cases h
    · rw [if_neg hx] at h; exact h

/-- Revision 1 resolver only produces members of the fetched list. -/
theorem resolve1_mem {env : Env} {hostname t : JSStr} {known : List JSStr}
    (h : resolve1 env hostname known = some t) : t ∈ known := by
  unfold resolve1 at h
  split at h
  · simp at h
  · split at h
    · split at h
      next hmem => injection h with h'; exact h' ▸ hmem
      next => simp at h
    · simp at h

/-- Revision 2 resolver only produces members of the fetched list. -/
theorem resolve2_mem {env : Env} {hostname t : JSStr} {valid : List JSStr}
    (h : resolve2 env hostname valid = some t) : t ∈ valid := by
  unfold resolve2 at h
  split at h
  · split at h
    next hmem => injection h with h'; exact h' ▸ hmem
    next => simp at h
  · simp at h

/-- Revision 1 sets the `x-tenant-id` header only to members of the fetched
list. -/
theorem middleware1_forward_mem {env : Env} {path t : JSStr} {host : Option JSStr}
    {known : List JSStr}
    (h : middleware1 env path host known = .forward (some t)) : t ∈ known := by
  unfold middleware1 at h
  split at h
  · simp at h
  · have h' : jsTruthy (resolve1 env (hostname1 env host) known) = some t := by
      injection h
    exact resolve1_mem (jsTruthy_eq_some h')

/-- Revision 2 sets the `x-tenant-id` header only to members of the fetched
list. -/
theorem middleware2_forward_mem {env : Env} {path t : JSStr} {host : Option JSStr}
    {valid : List JSStr}
    (h : middleware2 env path host valid = .forward (some t)) : t ∈ valid := by
  unfold middleware2 at h
  split at h
  · simp at h
  · have h' : jsTruthy (resolve2 env (hostname2 env host) valid) = some t := by
      injection h
    exact resolve2_mem (jsTruthy_eq_some h')

/-- On a non-exempt path, when the revision-1 candidate is not in the fetched
list the request is forwarded with the header deleted. -/
theorem middleware1_unknown {env : Env} {path : JSStr} {host : Option JSStr}
    {known : List JSStr}
    (hex : exemptPath path = false)
    (hc : candidate1 env (hostname1 env host) ∉ known) :
    middleware1 env path host known = .forward none := by
  unfold middleware1
  rw [if_neg (by simp [hex])]
  have hres : resolve1 env (hostname1 env host) known = none := by
    unfold resolve1
    split
    · rfl
    · split <;> rfl
  rw [hres]
  rfl

/-- On a non-exempt path, when the revision-2 candidate is not in the fetched
list the request is forwarded with the header deleted. -/
theorem middleware2_unknown {env : Env} {path : JSStr} {host : Option JSStr}
    {valid : List JSStr}
    (hex : exemptPath path = false)
    (hc : candidate2 env (hostname2 env host) ∉ valid) :
    middleware2 env path host valid = .forward none := by
  unfold middleware2
  rw [if_neg (by simp [hex])]
  have hres : resolve2 env (hostname2 env host) valid = none := by
    unfold resolve2
    split <;> rfl
  rw [hres]
  rfl

/-- Revision 3 answers an unknown candidate on a non-base host with a 307
redirect to `https://BASE_HOST` plus the original path. -/
theorem middleware3_unknown {env : Env} {path : JSStr} {host : Option JSStr}
    {valid : List JSStr}
    (hex : exemptPath path = false)
    (hne : jsToLower (hostname3 env host) ≠ jsToLower (baseHost3 env))
    (hc : candidate3 env (hostname3 env host) ∉ valid) :
    middleware3 env path host valid =
      .redirect 307 ("https://".toList ++ baseHost3 env ++ path) := by
  unfold middleware3
  rw [if_neg (by simp [hex]), if_pos hne, if_neg hc]

/-- Revision 1 never produces a redirect response. -/
theorem middleware1_ne_redirect (env : Env) (path : JSStr) (host : Option JSStr)
    (known : List JSStr) (s : Nat) (l : JSStr) :
    middleware1 env path host known ≠ .redirect s l := by
  unfold middleware1
  split <;> simp

/-- Revision 2 never produces a redirect response. -/
theorem middleware2_ne_redirect (env : Env) (path : JSStr) (host : Option JSStr)
    (valid : List JSStr) (s : Nat) (l : JSStr) :
    middleware2 env path host valid ≠ .redirect s l := by
  unfold middleware2
  split <;> simp

/-- Revision 1 on the exact base host: header deleted, request forwarded. -/
theorem middleware1_base {env : Env} {path : JSStr} {host : Option JSStr}
    {known : List JSStr}
    (hex : exemptPath path = false)
    (hb : hostname1 env host = baseHost1 env) :
    middleware1 env path host known = .forward none := by
  unfold middleware1
  rw [if_neg (by simp [hex])]
  have hres : resolve1 env (hostname1 env host) known = none := by
    unfold resolve1
    rw [if_pos (Or.inl hb)]
  rw [hres]
  rfl

/-- Revision 2 host normalization fixes the base host. -/
theorem normalizeHost2_base (env : Env) :
    normalizeHost2 env (baseHost2 env) = baseHost2 env := by
  have hv : vercelNormalize env (baseHost2 env) = baseHost2 env := by
    unfold vercelNormalize; split <;> rfl
  unfold normalizeHost2
  rw [hv]
  split <;> rfl

/-- Revision 2 on the exact base host: header deleted, request forwarded. -/
theorem middleware2_base {env : Env} {path : JSStr} {host : Option JSStr}
    {valid : List JSStr}
    (hex : exemptPath path = false)
    (hb : stripPort (jsOr host (baseHost2 env)) = baseHost2 env) :
    middleware2 env path host valid = .forward none := by
  unfold middleware2
  rw [if_neg (by simp [hex])]
  have hh : hostname2 env host = baseHost2 env := by
    unfold hostname2
    rw [hb, normalizeHost2_base]
  have hres : resolve2 env (hostname2 env host) valid = none := by
    unfold resolve2
    rw [hh, if_neg (by simp)]
  rw [hres]
  rfl

/-- Dot-free known label on the exact base suffix: revision 1 resolves it. -/
theorem resolve1_hit {env : Env} {t B : JSStr} {known : List JSStr}
    (hB : baseHost1 env = B)
    (hdot : ∀ c ∈ t, c ≠ '.')
    (hne : t ≠ [])
    (hwww : t ≠ ("www".toList))
    (hlabel : t ≠ (jsSplit '.' B).headD [])
    (hv : vercelHit env.vercelUrl (t ++ ('.' :: B)) = false)
    (hmem : t ∈ known) :
    resolve1 env (t ++ ('.' :: B)) known = some t := by
  have hparts : parts1 env (t ++ ('.' :: B)) = [t] := by
    unfold parts1
    rw [hB, replaceFirst_append_head t '.' B hdot, jsSplit_no_sep '.' t hdot]
  have hcand : candidate1 env (t ++ ('.' :: B)) = t := by
    unfold candidate1
    rw [hparts]
    rfl
  unfold resolve1
  rw [hcand, hparts, hB]
  have h1 : ¬(t ++ ('.' :: B) = B ∨ t = ("www".toList) ∨
      vercelHit env.vercelUrl (t ++ ('.' :: B)) = true) := by
    rintro (h | h | h)
    · exact append_cons_ne t B h
    · exact hwww h
    · rw [hv] at h; cases h
  rw [if_neg h1, if_pos ⟨by simp, hlabel, hne⟩, if_pos hmem]

/-- Dot-free known label on the exact base suffix: revision 1 forwards the
request with the header set to the label. -/
theorem middleware1_hit {env : Env} {path t B : JSStr} {host : Option JSStr}
    {known : List JSStr}
    (hex : exemptPath path = false)
    (hhost : host = some (t ++ ('.' :: B)))
    (hstrip : stripPort (t ++ ('.' :: B)) = t ++ ('.' :: B))
    (hB : baseHost1 env = B)
    (hdot : ∀ c ∈ t, c ≠ '.')
    (hne : t ≠ [])
    (hwww : t ≠ ("www".toList))
    (hlabel : t ≠ (jsSplit '.' B).headD [])
    (hv : vercelHit env.vercelUrl (t ++ ('.' :: B)) = false)
    (hmem : t ∈ known) :
    middleware1 env path host known = .forward (some t) := by
  have hh : hostname1 env host = t ++ ('.' :: B) := by
    unfold hostname1
    rw [hhost]
    simp only [jsOr]
    rw [if_neg (append_cons_ne_nil t B)]
    exact hstrip
  unfold middleware1
  rw [if_neg (by simp [hex]), hh, resolve1_hit hB hdot hne hwww hlabel hv hmem]
  simp [jsTruthy, hne]

/-- Dot-free known label on the exact base suffix: revision 2 forwards the
request with the header set to the label. -/
theorem middleware2_hit {env : Env} {path t B : JSStr} {host : Option JSStr}
    {valid : List JSStr}
    (hex : exemptPath path = false)
    (hhost : host = some (t ++ ('.' :: B)))
    (hstrip : stripPort (t ++ ('.' :: B)) = t ++ ('.' :: B))
    (hB : baseHost2 env = B)
    (hv : vercelHit env.vercelUrl (t ++ ('.' :: B)) = false)
    (hd1 : jsEndsWith ("cloudworkstations.dev".toList) (t ++ ('.' :: B)) = false)
    (hd2 : jsEndsWith ("app.idx.dev".toList) (t ++ ('.' :: B)) = false)
    (hdot : ∀ c ∈ t, c ≠ '.')
    (hne : t ≠ [])
    (hmem : t ∈ valid) :
    middleware2 env path host valid = .forward (some t) := by
  have hvn : vercelNormalize env (t ++ ('.' :: B)) = t ++ ('.' :: B) := by
    unfold vercelNormalize
    rw [if_neg (by simp [hv])]
  have hh : hostname2 env host = t ++ ('.' :: B) := by
    unfold hostname2
    rw [hhost]
    have hs : stripPort (jsOr (some (t ++ ('.' :: B))) (baseHost2 env)) = t ++ ('.' :: B) := by
      simp only [jsOr]
      rw [if_neg (append_cons_ne_nil t B)]
      exact hstrip
    rw [hs]
    unfold normalizeHost2
    rw [hvn, if_neg (by rw [hd1, hd2]; simp)]
  have hcand : candidate2 env (t ++ ('.' :: B)) = t := by
    unfold candidate2
    rw [hB]
    exact replaceFirst_append_head t '.' B hdot
  have hres : resolve2 env (t ++ ('.' :: B)) valid = some t := by
    unfold resolve2
    rw [hcand, hB, if_pos (append_cons_ne t B), if_pos hmem]
  unfold middleware2
  rw [if_neg (by simp [hex]), hh, hres]
  simp [jsTruthy, hne]

/-- A failed refresh returns `cachedTenantIds || []` and leaves the cache
state untouched. -/
theorem refreshResult_fail {st : CacheState} {now : Nat} {f : FetchOutcome}
    (hf : f.isFailure = true) :
    refreshResult st now f = (st.cachedTenantIds.getD [], st) := by
  cases f with
  | ok ids => simp [FetchOutcome.isFailure] at hf
  | fetchError => rfl
  | httpError s => rfl
  | badFormat => rfl

/-- Revision 1 cache lookup under a failing fetch: stale-serve, state
unchanged. -/
theorem fetchProcessed_fail {st : CacheState} {now : Nat} {f : FetchOutcome}
    (hf : f.isFailure = true) :
    fetchProcessedTenantIds st now f = (st.cachedTenantIds.getD [], st) := by
  unfold fetchProcessedTenantIds
  split
  next ids heq =>
    split
    · simp [heq]
    · rw [refreshResult_fail hf]
  next heq =>
    rw [refreshResult_fail hf]

/-- Revision 2 cache lookup under a failing fetch: stale-serve, state
unchanged. -/
theorem fetchValid_fail {st : CacheState} {now : Nat} {f : FetchOutcome}
    (hf : f.isFailure = true) :
    fetchValidTenantSubdomains st now f = (st.cachedTenantIds.getD [], st) := by
  unfold fetchValidTenantSubdomains
  split
  next ids heq =>
    split
    · simp [heq]
    · rw [refreshResult_fail hf]
  next heq =>
    rw [refreshResult_fail hf]

/-- Revision 1 cache hit: fresh snapshot served unchanged, whatever the fetch
outcome would have been. -/
theorem fetchProcessed_fresh {st : CacheState} {now : Nat} {f : FetchOutcome}
    {ids : List JSStr}
    (hs : st.cachedTenantIds = some ids)
    (ht : now - st.lastFetchTimestamp < CACHE_DURATION_MS) :
    fetchProcessedTenantIds st now f = (ids, st) := by
  unfold fetchProcessedTenantIds
  rw [hs]
  simp [ht]

/-- Revision 2 cache hit. -/
theorem fetchValid_fresh {st : CacheState} {now : Nat} {f : FetchOutcome}
    {ids : List JSStr}
    (hs : st.cachedTenantIds = some ids)
    (ht : now - st.lastFetchTimestamp < CACHE_DURATION_MS) :
    fetchValidTenantSubdomains st now f = (ids, st) := by
  unfold fetchValidTenantSubdomains
  rw [hs]
  simp [ht]

/-- Revision 1 successful refresh past the TTL (or with an empty cache):
snapshot and timestamp replaced together. -/
theorem fetchProcessed_refresh {st : CacheState} {now : Nat} {newIds : List JSStr}
    (hstale : st.cachedTenantIds = none ∨
      ¬(now - st.lastFetchTimestamp < CACHE_DURATION_MS)) :
    fetchProcessedTenantIds st now (.ok newIds) = (newIds, ⟨some newIds, now⟩) := by
  unfold fetchProcessedTenantIds
  cases hst : st.cachedTenantIds with
  | some ids =>
    rcases hstale with h | h
    · rw [hst] at h; cases h
    · simp [h, refreshResult]
  | none => simp [refreshResult]

/-- Revision 2 successful refresh past the TTL (or with an empty cache). -/
theorem fetchValid_refresh {st : CacheState} {now : Nat} {newIds : List JSStr}
    (hstale : st.cachedTenantIds = none ∨
      ¬(now - st.lastFetchTimestamp < CACHE_DURATION_MS)) :
    fetchValidTenantSubdomains st now (.ok newIds) = (newIds, ⟨some newIds, now⟩) := by
  unfold fetchValidTenantSubdomains
  cases hst : st.cachedTenantIds with
  | some ids =>
    rcases hstale with h | h
    · rw [hst] at h; cases h
    · simp [h, refreshResult]
  | none => simp [refreshResult]

/-- Set insertion preserves the no-duplicates invariant. -/
theorem dedupPush_nodup {acc : List JSStr} {x : JSStr} (h : acc.Nodup) :
    (dedupPush acc x).Nodup := by
  unfold dedupPush
  split
  · exact h
  next hx => simp [List.nodup_append, h, hx]

/-- Set insertion adds no element beyond the accumulator and the input. -/
theorem dedupPush_mem {acc : List JSStr} {x y : JSStr} (h : y ∈ dedupPush acc x) :
    y ∈ acc ∨ y = x := by
  unfold dedupPush at h
  split at h
  · exact Or.inl h
  · rcases List.mem_append.mp h with h' | h'
    · exact Or.inl h'
    · simp at h'; exact Or.inr h'

/-- Folding set insertions keeps the accumulator duplicate-free. -/
theorem dedup_foldl_nodup (l : List JSStr) :
    ∀ acc : List JSStr, acc.Nodup → (List.foldl dedupPush acc l).Nodup := by
  induction l with
  | nil => intro acc h; simpa using h
  | cons x xs ih =>
    intro acc h
    simp only [List.foldl_cons]
    exact ih _ (dedupPush_nodup h)

/-- Folding set insertions only collects accumulator or input elements. -/
theorem dedup_foldl_mem (l : List JSStr) :
    ∀ acc y, y ∈ List.foldl dedupPush acc l → y ∈ acc ∨ y ∈ l := by
  induction l with
  | nil => intro acc y h; exact Or.inl (by simpa using h)
  | cons x xs ih =>
    intro acc y h
    simp only [List.foldl_cons] at h
    rcases ih _ y h with h' | h'
    · rcases dedupPush_mem h' with h'' | h''
      · exact Or.inl h''
      · exact Or.inr (by simp [h''])
    · exact Or.inr (by simp [h'])

/-- The JS `Set` spread produces a duplicate-free list. -/
theorem jsDedup_nodup (l : List JSStr) : (jsDedup l).Nodup :=
  dedup_foldl_nodup l [] List.nodup_nil

/-- The JS `Set` spread keeps only elements of the input. -/
theorem jsDedup_mem {l : List JSStr} {y : JSStr} (h : y ∈ jsDedup l) : y ∈ l := by
  rcases dedup_foldl_mem l [] y h with h' | h'
  · simp at h'
  · exact h'

/-- Whatever the tenants-collection route extracts is nonempty and is not
`www` in any letter case. -/
theorem extractSub_some {base : JSStr} {d : Option JSStr} {x : JSStr}
    (h : extractSub base d = some x) :
    x ≠ [] ∧ jsToLower x ≠ ("www".toList) := by
  cases d with
  | none => simp [extractSub] at h
  | some dom =>
    simp only [extractSub] at h
    split at h
    · split at h
      next hcond => injection h with h'; exact h' ▸ hcond
      next => simp at h
    · simp at h

/-- The users-collection step preserves the no-duplicates invariant. -/
theorem pushUnseen_nodup {acc : List JSStr} {d : Option JSStr} (h : acc.Nodup) :
    (pushUnseen acc d).Nodup := by
  cases d with
  | none => exact h
  | some t =>
    simp only [pushUnseen]
    split
    next hc => simp [List.nodup_append, h, hc.2]
    next => exact h

/-- The users-collection step only adds nonempty identifiers. -/
theorem pushUnseen_mem {acc : List JSStr} {d : Option JSStr} {y : JSStr}
    (h : y ∈ pushUnseen acc d) : y ∈ acc ∨ y ≠ [] := by
  cases d with
  | none => exact Or.inl h
  | some t =>
    simp only [pushUnseen] at h
    split at h
    next hc =>
      rcases List.mem_append.mp h with h' | h'
      · exact Or.inl h'
      · simp at h'; exact Or.inr (h' ▸ hc.1)
    next => exact Or.inl h

/-- Folding users-collection steps keeps the accumulator duplicate-free. -/
theorem users_foldl_nodup (docs : List (Option JSStr)) :
    ∀ acc : List JSStr, acc.Nodup → (List.foldl pushUnseen acc docs).Nodup := by
  induction docs with
  | nil => intro acc h; simpa using h
  | cons d ds ih =>
    intro acc h
    simp only [List.foldl_cons]
    exact ih _ (pushUnseen_nodup h)

/-- Folding users-collection steps only collects accumulator elements or
nonempty identifiers. -/
theorem users_foldl_mem (docs : List (Option JSStr)) :
    ∀ acc y, y ∈ List.foldl pushUnseen acc docs → y ∈ acc ∨ y ≠ [] := by
  induction docs with
  | nil => intro acc y h; exact Or.inl (by simpa using h)
  | cons d ds ih =>
    intro acc y h
    simp only [List.foldl_cons] at h
    rcases ih _ y h with h' | h'
    · exact pushUnseen_mem h'
    · exact Or.inr h'

/-- C1 counterexample: on a non-exempt path with candidate `initech` absent
from the valid set `{acme}`, both `middleware.ts` revisions forward the
request with the `x-tenant-id` header deleted — no 302 redirect is returned —
and the only redirecting revision (the one embedded in the login-page
document) answers with status 307, not 302. -/
theorem c1_counterexample :
    middleware1 ⟨some ("app.example.com".toList), none⟩ ("/pipeline".toList)
        (some ("initech.app.example.com".toList)) [("acme".toList)] = .forward none ∧
    middleware2 ⟨some ("app.example.com".toList), none⟩ ("/pipeline".toList)
        (some ("initech.app.example.com".toList)) [("acme".toList)] = .forward none ∧
    middleware3 ⟨some ("app.example.com".toList), none⟩ ("/pipeline".toList)
        (some ("initech.app.example.com".toList)) [("acme".toList)] =
      .redirect 307 ("https://app.example.com/pipeline".toList) := by
  exact ⟨by decide, by decide, by decide⟩

/-- C1 (amended): for every request whose path is not exempt and whose
extracted candidate is absent from the cached valid set, the two
`middleware.ts` revisions forward the request with the `x-tenant-id` header
deleted (no redirect at all); the login-page revision — the only revision
that redirects — issues a 307 (not 302) to `https://BASE_HOST` plus the
original path, with no tenant header set. -/
theorem c1_theorem (env : Env) (path : JSStr) (host : Option JSStr) (valid : List JSStr)
    (hex : exemptPath path = false) :
    (candidate1 env (hostname1 env host) ∉ valid →
      middleware1 env path host valid = .forward none) ∧
    (candidate2 env (hostname2 env host) ∉ valid →
      middleware2 env path host valid = .forward none) ∧
    (jsToLower (hostname3 env host) ≠ jsToLower (baseHost3 env) →
      candidate3 env (hostname3 env host) ∉ valid →
      middleware3 env path host valid =
        .redirect 307 ("https://".toList ++ baseHost3 env ++ path)) := by
  refine ⟨fun hc => middleware1_unknown hex hc,
    fun hc => middleware2_unknown hex hc,
    fun hne hc => middleware3_unknown hex hne hc⟩

/-- C1 witness: the amended statement evaluated at a concrete unknown
subdomain. -/
theorem c1_witness :
    middleware1 ⟨some ("app.example.com".toList), none⟩ ("/leads".toList)
        (some ("hooli.app.example.com".toList)) [("acme".toList)] = .forward none ∧
    middleware2 ⟨some ("app.example.com".toList), none⟩ ("/leads".toList)
        (some ("hooli.app.example.com".toList)) [("acme".toList)] = .forward none ∧
    middleware3 ⟨some ("app.example.com".toList), none⟩ ("/leads".toList)
        (some ("hooli.app.example.com".toList)) [("acme".toList)] =
      .redirect 307 ("https://app.example.com/leads".toList) := by
  refine ⟨(c1_theorem _ _ _ _ (by decide)).1 (by decide),
    (c1_theorem _ _ _ _ (by decide)).2.1 (by decide),
    ?_⟩
  have h := (c1_theorem ⟨some ("app.example.com".toList), none⟩ ("/leads".toList)
    (some ("hooli.app.example.com".toList)) [("acme".toList)] (by decide)).2.2
    (by decide) (by decide)
  exact h

/-- C2 counterexample: `Acme` is a case-insensitive member of the valid set
`{acme}` and the host is `Acme.BASE_HOST`, yet both `middleware.ts` revisions
compare membership case-sensitively, find nothing, and forward with the
header deleted instead of setting it. -/
theorem c2_counterexample :
    jsToLower (candidate1 ⟨some ("app.example.com".toList), none⟩
        (hostname1 ⟨some ("app.example.com".toList), none⟩
          (some ("Acme.app.example.com".toList)))) = jsToLower ("acme".toList) ∧
    ("acme".toList) ∈ [("acme".toList)] ∧
    middleware1 ⟨some ("app.example.com".toList), none⟩ ("/invoices".toList)
        (some ("Acme.app.example.com".toList)) [("acme".toList)] = .forward none ∧
    middleware2 ⟨some ("app.example.com".toList), none⟩ ("/invoices".toList)
        (some ("Acme.app.example.com".toList)) [("acme".toList)] = .forward none := by
  exact ⟨by decide, by decide, by decide, by decide⟩

/-- C2 (amended): membership is compared case-sensitively (exact string
equality, JS `includes`).  For every tenant identifier `t` that is an exact
member of the valid set and is a well-formed label (nonempty, dot-free, not
`www`, distinct from the base host's first label), a request for host
exactly `t.BASE_HOST` on a non-exempt path (with no Vercel/development-suffix
normalization applying) is forwarded by both `middleware.ts` revisions with
the `x-tenant-id` header set to `t`. -/
theorem c2_theorem (env : Env) (path t B : JSStr) (host : Option JSStr)
    (valid : List JSStr)
    (hex : exemptPath path = false)
    (hB1 : baseHost1 env = B)
    (hB2 : baseHost2 env = B)
    (hhost : host = some (t ++ ('.' :: B)))
    (hstrip : stripPort (t ++ ('.' :: B)) = t ++ ('.' :: B))
    (hdot : ∀ c ∈ t, c ≠ '.')
    (hne : t ≠ [])
    (hwww : t ≠ ("www".toList))
    (hlabel : t ≠ (jsSplit '.' B).headD [])
    (hv : vercelHit env.vercelUrl (t ++ ('.' :: B)) = false)
    (hd1 : jsEndsWith ("cloudworkstations.dev".toList) (t ++ ('.' :: B)) = false)
    (hd2 : jsEndsWith ("app.idx.dev".toList) (t ++ ('.' :: B)) = false)
    (hmem : t ∈ valid) :
    middleware1 env path host valid = .forward (some t) ∧
    middleware2 env path host valid = .forward (some t) := by
  exact ⟨middleware1_hit hex hhost hstrip hB1 hdot hne hwww hlabel hv hmem,
    middleware2_hit hex hhost hstrip hB2 hv hd1 hd2 hdot hne hmem⟩

/-- C2 witness: the amended statement evaluated for the valid tenant `globex`
on host `globex.app.example.com`. -/
theorem c2_witness :
    middleware1 ⟨some ("app.example.com".toList), none⟩ ("/leads".toList)
        (some ("globex.app.example.com".toList)) [("globex".toList)] =
      .forward (some ("globex".toList)) ∧
    middleware2 ⟨some ("app.example.com".toList), none⟩ ("/leads".toList)
        (some ("globex.app.example.com".toList)) [("globex".toList)] =
      .forward (some ("globex".toList)) := by
  exact c2_theorem ⟨some ("app.example.com".toList), none⟩ ("/leads".toList)
    ("globex".toList) ("app.example.com".toList)
    (some ("globex.app.example.com".toList)) [("globex".toList)]
    (by decide) (by decide) (by decide) (by decide) (by decide) (by decide)
    (by decide) (by decide) (by decide) (by decide) (by decide) (by decide)
    (by decide)

/-- C3: on the tenant-resolution path (non-bypass), whenever either
`middleware.ts` revision forwards with the `x-tenant-id` header set to some
value `t`, that `t` is a member of the fetched valid-tenant list: the header
is never forwarded carrying an unvalidated value. -/
theorem c3_theorem (env : Env) (path : JSStr) (host : Option JSStr)
    (valid : List JSStr) (t : JSStr) :
    (middleware1 env path host valid = .forward (some t) → t ∈ valid) ∧
    (middleware2 env path host valid = .forward (some t) → t ∈ valid) := by
  exact ⟨middleware1_forward_mem, middleware2_forward_mem⟩

/-- C3 witness: the invariant evaluated where both revisions actually set the
header to `acme`. -/
theorem c3_witness : ("acme".toList) ∈ [("acme".toList)] ∧ ("acme".toList) ∈ [("acme".toList)] := by
  refine ⟨(c3_theorem ⟨some ("app.example.com".toList), none⟩ ("/pipeline".toList)
    (some ("acme.app.example.com".toList)) [("acme".toList)] ("acme".toList)).1 (by decide),
    (c3_theorem ⟨some ("app.example.com".toList), none⟩ ("/pipeline".toList)
    (some ("acme.app.example.com".toList)) [("acme".toList)] ("acme".toList)).2 (by decide)⟩

/-- C4: in the first middleware revision the string replace is not anchored
to the base-host suffix: host `acme.attacker.com` does not end in
`.app.example.com`, yet its first label `acme`, being in the valid set, is
forwarded as the `x-tenant-id` header. -/
theorem c4_theorem :
    jsEndsWith ('.' :: ("app.example.com".toList)) ("acme.attacker.com".toList) = false ∧
    ("acme".toList) ∈ [("acme".toList)] ∧
    middleware1 ⟨some ("app.example.com".toList), none⟩ ("/pipeline".toList)
        (some ("acme.attacker.com".toList)) [("acme".toList)] =
      .forward (some ("acme".toList)) := by
  exact ⟨by decide, by decide, by decide⟩

/-- C5: under any failing refresh (thrown fetch, non-OK status, malformed
body), both cache functions return `cachedTenantIds || []` — the prior
snapshot when one exists, the empty list otherwise — and leave the cache
state completely unchanged (never cleared). -/
theorem c5_theorem (st : CacheState) (now : Nat) (f : FetchOutcome)
    (hf : f.isFailure = true) :
    fetchProcessedTenantIds st now f = (st.cachedTenantIds.getD [], st) ∧
    fetchValidTenantSubdomains st now f = (st.cachedTenantIds.getD [], st) := by
  exact ⟨fetchProcessed_fail hf, fetchValid_fail hf⟩

/-- C5 witness: a stale populated cache served unchanged across a thrown
fetch, and an empty cache yielding the empty list. -/
theorem c5_witness :
    fetchProcessedTenantIds ⟨some [("acme".toList)], 0⟩ 400000 .fetchError =
      ([("acme".toList)], ⟨some [("acme".toList)], 0⟩) ∧
    fetchValidTenantSubdomains ⟨none, 0⟩ 400000 (.httpError 500) = ([], ⟨none, 0⟩) := by
  exact ⟨(c5_theorem ⟨some [("acme".toList)], 0⟩ 400000 .fetchError (by decide)).1,
    (c5_theorem ⟨none, 0⟩ 400000 (.httpError 500) (by decide)).2⟩

/-- C6: with a snapshot present and `now - lastFetchTimestamp` strictly below
the 300000 ms TTL, both cache functions return the snapshot unchanged for
EVERY fetch outcome (the result does not depend on the fetch — no I/O is
consulted); otherwise a successful fetch replaces snapshot and timestamp
together; and the TTL constant is 5 minutes. -/
theorem c6_theorem (st : CacheState) (now : Nat) (f : FetchOutcome)
    (ids newIds : List JSStr) :
    (st.cachedTenantIds = some ids → now - st.lastFetchTimestamp < CACHE_DURATION_MS →
      fetchProcessedTenantIds st now f = (ids, st) ∧
      fetchValidTenantSubdomains st now f = (ids, st)) ∧
    ((st.cachedTenantIds = none ∨ ¬(now - st.lastFetchTimestamp < CACHE_DURATION_MS)) →
      fetchProcessedTenantIds st now (.ok newIds) = (newIds, ⟨some newIds, now⟩) ∧
      fetchValidTenantSubdomains st now (.ok newIds) = (newIds, ⟨some newIds, now⟩)) ∧
    CACHE_DURATION_MS = 300000 := by
  refine ⟨fun hs ht => ⟨fetchProcessed_fresh hs ht, fetchValid_fresh hs ht⟩,
    fun hst => ⟨fetchProcessed_refresh hst, fetchValid_refresh hst⟩, rfl⟩

/-- C6 witness: a fresh hit served unchanged despite a failing fetch outcome,
and a stale cache refreshed wholesale by a successful fetch. -/
theorem c6_witness :
    fetchProcessedTenantIds ⟨some [("acme".toList)], 100⟩ 200 .fetchError =
      ([("acme".toList)], ⟨some [("acme".toList)], 100⟩) ∧
    fetchProcessedTenantIds ⟨some [("acme".toList)], 0⟩ 400000 (.ok [("globex".toList)]) =
      ([("globex".toList)], ⟨some [("globex".toList)], 400000⟩) := by
  refine ⟨((c6_theorem ⟨some [("acme".toList)], 100⟩ 200 .fetchError
      [("acme".toList)] []).1 rfl (by decide)).1,
    ((c6_theorem ⟨some [("acme".toList)], 0⟩ 400000 .fetchError
      [("acme".toList)] [("globex".toList)]).2.1 (Or.inr (by decide))).1⟩

/-- C7 counterexample: host `App.example.com` equals the base host
`app.example.com` case-insensitively, yet with a suitably populated directory
revision 1 sets `x-tenant-id: App` and revision 2 sets
`x-tenant-id: App.example.com` — the header is not cleared, because the
base-host comparison in `middleware.ts` is case-sensitive. -/
theorem c7_counterexample :
    jsToLower ("App.example.com".toList) = jsToLower ("app.example.com".toList) ∧
    middleware1 ⟨some ("app.example.com".toList), none⟩ ("/settings".toList)
        (some ("App.example.com".toList))
        [("App".toList), ("App.example.com".toList)] = .forward (some ("App".toList)) ∧
    middleware2 ⟨some ("app.example.com".toList), none⟩ ("/settings".toList)
        (some ("App.example.com".toList))
        [("App".toList), ("App.example.com".toList)] =
      .forward (some ("App.example.com".toList)) := by
  exact ⟨by decide, by decide, by decide⟩

/-- C7 (amended): the base-host comparison is case-sensitive: for every
request whose port-stripped host equals `BASE_HOST` exactly, each
`middleware.ts` revision deletes the `x-tenant-id` header and forwards,
regardless of the directory contents. -/
theorem c7_theorem (env : Env) (path : JSStr) (host : Option JSStr)
    (valid : List JSStr)
    (hex : exemptPath path = false) :
    (stripPort (jsOr host (baseHost1 env)) = baseHost1 env →
      middleware1 env path host valid = .forward none) ∧
    (stripPort (jsOr host (baseHost2 env)) = baseHost2 env →
      middleware2 env path host valid = .forward none) := by
  exact ⟨fun hb => middleware1_base hex hb, fun hb => middleware2_base hex hb⟩

/-- C7 witness: the amended statement evaluated at the exact base host with a
populated directory. -/
theorem c7_witness :
    middleware1 ⟨some ("app.example.com".toList), none⟩ ("/settings".toList)
        (some ("app.example.com".toList)) [("acme".toList)] = .forward none ∧
    middleware2 ⟨some ("app.example.com".toList), none⟩ ("/settings".toList)
        (some ("app.example.com".toList)) [("acme".toList)] = .forward none := by
  exact ⟨(c7_theorem ⟨some ("app.example.com".toList), none⟩ ("/settings".toList)
      (some ("app.example.com".toList)) [("acme".toList)] (by decide)).1 (by decide),
    (c7_theorem ⟨some ("app.example.com".toList), none⟩ ("/settings".toList)
      (some ("app.example.com".toList)) [("acme".toList)] (by decide)).2 (by decide)⟩

/-- C8: every request whose path starts with `/api/`, `/_next/` or `/static/`
or contains a `.` is bypassed by both `middleware.ts` revisions — forwarded
with the header set untouched (no set, no delete) — for every host header and
every state of the tenant list. -/
theorem c8_theorem (env : Env) (path : JSStr) (host : Option JSStr)
    (valid : List JSStr)
    (h : jsStartsWith ("/api/".toList) path = true ∨
      jsStartsWith ("/_next/".toList) path = true ∨
      jsStartsWith ("/static/".toList) path = true ∨
      path.contains '.' = true) :
    middleware1 env path host valid = .bypass ∧
    middleware2 env path host valid = .bypass := by
  have hex : exemptPath path = true := by
    unfold exemptPath
    rcases h with h | h | h | h <;>
      simp only [h, Bool.or_true, Bool.true_or]
  constructor
  · unfold middleware1
    rw [if_pos hex]
  · unfold middleware2
    rw [if_pos hex]

/-- C8 witness: an API path bypassed under an arbitrary tenant host and
populated cache. -/
theorem c8_witness :
    middleware1 ⟨some ("app.example.com".toList), none⟩ ("/api/get-tenants".toList)
        (some ("evil.attacker.com".toList)) [("acme".toList)] = .bypass ∧
    middleware2 ⟨some ("app.example.com".toList), none⟩ ("/api/get-tenants".toList)
        (some ("evil.attacker.com".toList)) [("acme".toList)] = .bypass := by
  exact c8_theorem ⟨some ("app.example.com".toList), none⟩ ("/api/get-tenants".toList)
    (some ("evil.attacker.com".toList)) [("acme".toList)] (Or.inl (by decide))

/-- C9 counterexample: with base domain `app.example.com`, a record whose
domain is `app.other.com` yields the identifier `app` — exactly the
base-domain label, which the claim says is excluded; and the
users-collection revision happily returns the reserved label `www`. -/
theorem c9_counterexample :
    GETtenants (some ("app.example.com".toList)) [some ("app.other.com".toList)] =
      [("app".toList)] ∧
    (jsSplit '.' ("app.example.com".toList)).headD [] = ("app".toList) ∧
    GETusers [some ("www".toList)] = [("www".toList)] := by
  exact ⟨by decide, by decide, by decide⟩

/-- C9 (amended): both GET revisions deduplicate (first-occurrence order) and
drop empty identifiers; the tenants-collection revision additionally never
returns `www` in any letter case (and skips records whose FULL domain equals
the base domain — it does not exclude identifiers merely equal to the
base-domain label); the users-collection revision applies no base-domain or
`www` exclusion at all. -/
theorem c9_theorem (baseUrl : Option JSStr) (docs udocs : List (Option JSStr)) :
    (GETtenants baseUrl docs).Nodup ∧
    (∀ x ∈ GETtenants baseUrl docs, x ≠ [] ∧ jsToLower x ≠ ("www".toList)) ∧
    (GETusers udocs).Nodup ∧
    (∀ y ∈ GETusers udocs, y ≠ []) := by
  refine ⟨jsDedup_nodup _, fun x hx => ?_, users_foldl_nodup udocs [] List.nodup_nil,
    fun y hy => ?_⟩
  · have hx' := jsDedup_mem hx
    rcases List.mem_filterMap.mp hx' with ⟨d, _, hd⟩
    exact extractSub_some hd
  · rcases users_foldl_mem udocs [] y hy with h | h
    · simp at h
    · exact h

/-- C9 witness: the amended statement evaluated on concrete records. -/
theorem c9_witness :
    ("acme".toList) ≠ ([] : JSStr) ∧ jsToLower ("acme".toList) ≠ ("www".toList) ∧
    ("globex".toList) ≠ ([] : JSStr) := by
  refine ⟨((c9_theorem (some ("app.example.com".toList))
      [some ("acme.app.example.com".toList)] [some ("globex".toList)]).2.1
      ("acme".toList) (by decide)).1,
    ((c9_theorem (some ("app.example.com".toList))
      [some ("acme.app.example.com".toList)] [some ("globex".toList)]).2.1
      ("acme".toList) (by decide)).2,
    (c9_theorem (some ("app.example.com".toList))
      [some ("acme.app.example.com".toList)] [some ("globex".toList)]).2.2.2
      ("globex".toList) (by decide)⟩

/-- C10 counterexample: with the host header missing entirely, the claim
demands a redirect to the base host; both `middleware.ts` revisions instead
fall back to the base host and forward the request with the header deleted —
no redirect is produced. -/
theorem c10_counterexample :
    middleware1 ⟨some ("app.example.com".toList), none⟩ ("/contacts".toList)
        none [("acme".toList)] = .forward none ∧
    middleware2 ⟨some ("app.example.com".toList), none⟩ ("/contacts".toList)
        none [("acme".toList)] = .forward none := by
  exact ⟨by decide, by decide⟩

/-- C10 (amended): the `middleware.ts` revisions never return a redirect for
any input; a missing host header falls back to the configured base host and
is forwarded with the header deleted, which is exactly the outcome of a
candidate not found in the valid set; and any candidate (however malformed)
that is absent from the valid set likewise yields a forwarded request with
the header deleted — the middleware is a total function, terminating
normally on every such input. -/
theorem c10_theorem (env : Env) (path : JSStr) (host : Option JSStr)
    (valid : List JSStr) (s : Nat) (l : JSStr) :
    (middleware1 env path host valid ≠ .redirect s l) ∧
    (middleware2 env path host valid ≠ .redirect s l) ∧
    (exemptPath path = false → stripPort (baseHost1 env) = baseHost1 env →
      host = none → middleware1 env path host valid = .forward none) ∧
    (exemptPath path = false → stripPort (baseHost2 env) = baseHost2 env →
      host = none → middleware2 env path host valid = .forward none) ∧
    (exemptPath path = false → candidate1 env (hostname1 env host) ∉ valid →
      middleware1 env path host valid = .forward none) ∧
    (exemptPath path = false → candidate2 env (hostname2 env host) ∉ valid →
      middleware2 env path host valid = .forward none) := by
  refine ⟨middleware1_ne_redirect env path host valid s l,
    middleware2_ne_redirect env path host valid s l,
    fun hex hb hh => ?_, fun hex hb hh => ?_,
    fun hex hc => middleware1_unknown hex hc,
    fun hex hc => middleware2_unknown hex hc⟩
  · subst hh
    exact middleware1_base hex hb
  · subst hh
    exact middleware2_base hex hb

/-- C10 witness: the amended statement evaluated with the host header absent
and a populated cache. -/
theorem c10_witness :
    middleware1 ⟨some ("app.example.com".toList), none⟩ ("/orders".toList)
        none [("acme".toList)] ≠
      .redirect 302 ("https://app.example.com/orders".toList) ∧
    middleware1 ⟨some ("app.example.com".toList), none⟩ ("/orders".toList)
        none [("acme".toList)] = .forward none ∧
    middleware2 ⟨some ("app.example.com".toList), none⟩ ("/orders".toList)
        none [("acme".toList)] = .forward none := by
  refine ⟨(c10_theorem ⟨some ("app.example.com".toList), none⟩ ("/orders".toList)
      none [("acme".toList)] 302 ("https://app.example.com/orders".toList)).1,
    (c10_theorem ⟨some ("app.example.com".toList), none⟩ ("/orders".toList)
      none [("acme".toList)] 302 ("https://app.example.com/orders".toList)).2.2.1
      (by decide) (by decide) rfl,
    (c10_theorem ⟨some ("app.example.com".toList), none⟩ ("/orders".toList)
      none [("acme".toList)] 302 ("https://app.example.com/orders".toList)).2.2.2.1
      (by decide) (by decide) rfl⟩
